import Mathlib

/-!
Verification of the BEiT vision-transformer module graph
(`flowvision/models/beit.py`) against its design specification.

The Python source is shallowly embedded: tensors become functions
`ℕ → ℝ` / `ℕ → ℕ → ℝ` (shapes recorded as explicit `ℕ` arguments),
integer index tensors become `ℤ`-valued functions, in-place
initialization passes become explicit state-passing functions, and
framework collaborators that the spec treats as black boxes
(`F.linear`, `softmax`, `flow.linspace`, `nn.Identity`, truncated-normal
random draws) are embedded by their documented mathematical contracts,
with random draws passed in as explicit arguments.  Dropout layers are
embedded in inference mode (identity), as the claims under study are
stated for inference.
-/

/-! ## Relative position index generator (`gen_relative_position_index`) -/

/-- `num_relative_distance = (2*H - 1) * (2*W - 1) + 3` (line 26). -/
def numRelativeDistance (H W : ℕ) : ℤ :=
  (2 * (H : ℤ) - 1) * (2 * (W : ℤ) - 1) + 3

/-- `coords_flatten` (lines 30-33): grid cell `k` of a row-major `H × W`
grid has coordinates `(k / W, k % W)`. -/
def coordsFlatten (W : ℕ) (k : ℕ) : ℤ × ℤ :=
  (((k / W : ℕ) : ℤ), ((k % W : ℕ) : ℤ))

/-- Lines 34-44: the signed coordinate difference of cells `i`, `j`,
shifted by `H-1` / `W-1`, the row component scaled by `2*W - 1`, and the
two components summed. -/
def relativeCoordsSum (H W : ℕ) (i j : ℕ) : ℤ :=
  let a := coordsFlatten W i
  let b := coordsFlatten W j
  (a.1 - b.1 + ((H : ℤ) - 1)) * (2 * (W : ℤ) - 1) + (a.2 - b.2 + ((W : ℤ) - 1))

/-- `gen_relative_position_index` (lines 25-48), as the entry at `(i, j)`
of the `(H*W+1) × (H*W+1)` index matrix.  The nesting mirrors the three
in-place slice assignments of lines 45-47 (a later assignment wins over
an earlier one): interior fill, then row 0, then column 0, then the
`(0,0)` corner. -/
def gen_relative_position_index (H W : ℕ) (i j : ℕ) : ℤ :=
  let interior : ℤ := if 1 ≤ i ∧ 1 ≤ j then relativeCoordsSum H W (i - 1) (j - 1) else 0
  let afterRow := if i = 0 then numRelativeDistance H W - 3 else interior
  let afterCol := if j = 0 then numRelativeDistance H W - 2 else afterRow
  if i = 0 ∧ j = 0 then numRelativeDistance H W - 1 else afterCol

/-! ## Attention (`Attention.__init__`, `Attention.forward`)

A tensor of shape `N × C` is a function `ℕ → ℕ → ℝ`; the batch
dimension is omitted because every operation of the forward pass acts
batch-pointwise.  Dropout (`attn_drop`, `proj_drop`) is inference-mode
(identity). -/

/-- `F.linear` contract: `out n j = Σ_c x n c * w j c + bias j`, with an
optional bias (line 121). -/
noncomputable def linearB (inFeatures : ℕ) (x : ℕ → ℕ → ℝ) (w : ℕ → ℕ → ℝ)
    (b : Option (ℕ → ℝ)) : ℕ → ℕ → ℝ :=
  fun n j => (∑ c ∈ Finset.range inFeatures, x n c * w j c)
    + (match b with
       | some bb => bb j
       | none => 0)

/-- `flow.cat((q_bias, k_bias, v_bias))` (line 117) for three segments of
length `len` each. -/
def catBias (q k v : ℕ → ℝ) (len : ℕ) : ℕ → ℝ :=
  fun e => if e < len then q e else if e < 2 * len then k (e - len) else v (e - 2 * len)

/-- `self.scale = head_dim ** -0.5` (line 68). -/
noncomputable def attnScale (headDim : ℕ) : ℝ :=
  (headDim : ℝ) ^ (-(0.5) : ℝ)

/-- Row softmax contract (`attn.softmax(dim=-1)`, line 133). -/
noncomputable def softmaxRow (N : ℕ) (v : ℕ → ℝ) : ℕ → ℝ :=
  fun j => Real.exp (v j) / ∑ m ∈ Finset.range N, Real.exp (v m)

/-- `_get_rel_pos_bias` (lines 100-111): gather the bias table at the
precomputed index matrix and permute to `head × token × token`. -/
noncomputable def relPosGather (t : ℕ → ℕ → ℝ) (wh ww : ℕ) : ℕ → ℕ → ℕ → ℝ :=
  fun h i j => t (gen_relative_position_index wh ww i j).toNat h

/-- Lines 126-131: raw scaled dot-product scores, then the per-module
relative-position bias when the module owns a table, then the shared
relative-position bias when the caller supplies one.  Both additions are
sequential and cumulative, as in the source. -/
noncomputable def attnScores (headDim wh ww : ℕ) (table : Option (ℕ → ℕ → ℝ))
    (shared : Option (ℕ → ℕ → ℕ → ℝ)) (q k : ℕ → ℕ → ℕ → ℝ) : ℕ → ℕ → ℕ → ℝ :=
  let base : ℕ → ℕ → ℕ → ℝ := fun h i j => ∑ d ∈ Finset.range headDim, q h i d * k h j d
  let withTable : ℕ → ℕ → ℕ → ℝ :=
    match table with
    | some t => fun h i j => base h i j + relPosGather t wh ww h i j
    | none => base
  match shared with
  | some s => fun h i j => withTable h i j + s h i j
  | none => withTable

/-- `Attention.forward` after the combined qkv projection (lines
122-139): split into heads, scale queries, form attention scores with
the optional biases, softmax, combine with values, merge heads, and
apply the output projection.  The head split mirrors
`reshape(B, N, 3, num_heads, head_dim).permute(2, 0, 3, 1, 4)`. -/
noncomputable def attnRest (numHeads headDim wh ww : ℕ) (table : Option (ℕ → ℕ → ℝ))
    (projWeight : ℕ → ℕ → ℝ) (projBias : ℕ → ℝ) (N : ℕ)
    (shared : Option (ℕ → ℕ → ℕ → ℝ)) (qkv : ℕ → ℕ → ℝ) : ℕ → ℕ → ℝ :=
  let allHeadDim := numHeads * headDim
  let q : ℕ → ℕ → ℕ → ℝ := fun h n d => qkv n (h * headDim + d)
  let k : ℕ → ℕ → ℕ → ℝ := fun h n d => qkv n (allHeadDim + h * headDim + d)
  let v : ℕ → ℕ → ℕ → ℝ := fun h n d => qkv n (2 * allHeadDim + h * headDim + d)
  let qScaled : ℕ → ℕ → ℕ → ℝ := fun h n d => q h n d * attnScale headDim
  let scores := attnScores headDim wh ww table shared qScaled k
  let soft : ℕ → ℕ → ℕ → ℝ := fun h i => softmaxRow N (fun j => scores h i j)
  let merged : ℕ → ℕ → ℝ :=
    fun n e => ∑ m ∈ Finset.range N, soft (e / headDim) n m * v (e / headDim) m (e % headDim)
  linearB allHeadDim merged projWeight (some projBias)

/-- The state of an `Attention` module: dimensions, the shared `qkv`
projection weight, the optional `q_bias`/`v_bias` parameters (the
`k_bias` buffer is structurally zero and kept implicit), the optional
relative-position-bias table with its window, and the output
projection. -/
structure AttentionParams where
  dim : ℕ
  numHeads : ℕ
  headDim : ℕ
  qkvWeight : ℕ → ℕ → ℝ
  qBias : Option (ℕ → ℝ)
  vBias : Option (ℕ → ℝ)
  windowH : ℕ
  windowW : ℕ
  relPosTable : Option (ℕ → ℕ → ℝ)
  projWeight : ℕ → ℕ → ℝ
  projBias : ℕ → ℝ

/-- Lines 116-120: the combined qkv bias is
`cat(q_bias, k_bias, v_bias)` when `q_bias` is present (with the
`k_bias` buffer all zeros) and absent otherwise. -/
noncomputable def qkvBiasVec (p : AttentionParams) : Option (ℕ → ℝ) :=
  match p.qBias with
  | some qb => some (catBias qb (fun _ => 0)
      (match p.vBias with
       | some vb => vb
       | none => fun _ => 0) (p.numHeads * p.headDim))
  | none => none

/-- `Attention.forward` (lines 113-139): combined qkv projection with
the optional bias, then the head-split attention pipeline. -/
noncomputable def attnForward (p : AttentionParams) (N : ℕ) (x : ℕ → ℕ → ℝ)
    (shared : Option (ℕ → ℕ → ℕ → ℝ)) : ℕ → ℕ → ℝ :=
  attnRest p.numHeads p.headDim p.windowH p.windowW p.relPosTable
    p.projWeight p.projBias N shared
    (linearB p.dim x p.qkvWeight (qkvBiasVec p))

/-- `Attention.__init__` (lines 52-98): `head_dim = dim // num_heads`
unless `attn_head_dim` overrides it; with `qkv_bias` the `q_bias` and
`v_bias` parameters are created as zeros (lines 71-78); with a window
the relative-position table is created as zeros (lines 80-94).  The
(randomly initialized) linear weights are passed in as explicit
draws. -/
noncomputable def mkAttention (dim numHeads : ℕ) (qkvBias : Bool)
    (window : Option (ℕ × ℕ)) (attnHeadDim : Option ℕ)
    (qkvWeight : ℕ → ℕ → ℝ) (projWeight : ℕ → ℕ → ℝ) (projBias : ℕ → ℝ) :
    AttentionParams :=
  let headDim := match attnHeadDim with
    | some d => d
    | none => dim / numHeads
  { dim := dim
    numHeads := numHeads
    headDim := headDim
    qkvWeight := qkvWeight
    qBias := if qkvBias then some (fun _ => 0) else none
    vBias := if qkvBias then some (fun _ => 0) else none
    windowH := match window with
      | some wsz => wsz.1
      | none => 0
    windowW := match window with
      | some wsz => wsz.2
      | none => 0
    relPosTable := match window with
      | some _ => some (fun _ _ => 0)
      | none => none
    projWeight := projWeight
    projBias := projBias }

/-! ## Transformer block (`Block.__init__`, `Block.forward`)

The attention and feed-forward sub-modules, and the two normalization
layers, are carried as their forward functions (the `Mlp` and
`LayerNorm` internals are external collaborators).  Stochastic depth is
per-sample: its realized Bernoulli mask for one call is a scalar. -/

/-- The `drop_path` attribute of a `Block` (line 170): either a
`DropPath` module carrying its drop rate, or `nn.Identity`. -/
inductive DropPathMod where
  | identity : DropPathMod
  | dropPath (rate : ℝ) : DropPathMod

/-- Modelled from the spec: the `DropPath` layer (imported from
`flowvision.layers`, not part of the examined sources) multiplies its
input, in training mode, by a per-sample Bernoulli keep-mask scaled by
the reciprocal of the keep probability (inverted dropout), and is the
identity at inference; `nn.Identity` is always the identity.  `mask` is
the realized Bernoulli draw for the sample at hand, and the function
returns the scalar factor applied to the branch. -/
noncomputable def dropPathFactor (m : DropPathMod) (training : Bool) (mask : ℝ) : ℝ :=
  match m with
  | .identity => 1
  | .dropPath rate => if training then mask / (1 - rate) else 1

/-- The state of a `Block`: the per-channel `gamma_1`/`gamma_2` gates
(created together, lines 180-188), the stochastic-depth module, and the
forward functions of the sub-modules. -/
structure BlockModel where
  dim : ℕ
  gammas : Option ((ℕ → ℝ) × (ℕ → ℝ))
  dropPathMod : DropPathMod
  attnF : (ℕ → ℕ → ℝ) → Option (ℕ → ℕ → ℕ → ℝ) → (ℕ → ℕ → ℝ)
  mlpF : (ℕ → ℕ → ℝ) → (ℕ → ℕ → ℝ)
  norm1F : (ℕ → ℕ → ℝ) → (ℕ → ℕ → ℝ)
  norm2F : (ℕ → ℕ → ℝ) → (ℕ → ℕ → ℝ)

/-- `Block.__init__` (lines 143-188): `drop_path` becomes a `DropPath`
module exactly when the rate is positive (line 170), and the gates are
created exactly when `init_values` is truthy — i.e. present and nonzero
(`if init_values:`, line 180) — initialized to `init_values * ones(dim)`. -/
noncomputable def mkBlock (dim : ℕ)
    (attnF : (ℕ → ℕ → ℝ) → Option (ℕ → ℕ → ℕ → ℝ) → (ℕ → ℕ → ℝ))
    (mlpF norm1F norm2F : (ℕ → ℕ → ℝ) → (ℕ → ℕ → ℝ))
    (dropPathRate : ℝ) (initValues : Option ℝ) : BlockModel :=
  { dim := dim
    gammas := match initValues with
      | some v => if v = 0 then none else some (fun _ => v, fun _ => v)
      | none => none
    dropPathMod := if 0 < dropPathRate then .dropPath dropPathRate else .identity
    attnF := attnF
    mlpF := mlpF
    norm1F := norm1F
    norm2F := norm2F }

/-- `Block.forward` (lines 190-202): pre-norm attention branch, then
pre-norm feed-forward branch, each gated by the realized drop-path
factor and added to the residual stream; with gates present each branch
is multiplied per-channel by the corresponding gamma before the
drop-path gate. -/
noncomputable def blockForward (b : BlockModel) (training : Bool) (mask1 mask2 : ℝ)
    (shared : Option (ℕ → ℕ → ℕ → ℝ)) (x : ℕ → ℕ → ℝ) : ℕ → ℕ → ℝ :=
  match b.gammas with
  | none =>
    let x1 := fun n c => x n c
      + dropPathFactor b.dropPathMod training mask1 * b.attnF (b.norm1F x) shared n c
    fun n c => x1 n c
      + dropPathFactor b.dropPathMod training mask2 * b.mlpF (b.norm2F x1) n c
  | some g =>
    let x1 := fun n c => x n c
      + dropPathFactor b.dropPathMod training mask1 * (g.1 c * b.attnF (b.norm1F x) shared n c)
    fun n c => x1 n c
      + dropPathFactor b.dropPathMod training mask2 * (g.2 c * b.mlpF (b.norm2F x1) n c)

/-- The spec's description of the gated block forward pass, for explicit
per-channel gates `g1`, `g2`: each residual branch output is multiplied
by its gate and then by the drop-path factor before the residual add. -/
noncomputable def blockForwardSpecScaled (b : BlockModel) (g1 g2 : ℕ → ℝ)
    (training : Bool) (mask1 mask2 : ℝ) (shared : Option (ℕ → ℕ → ℕ → ℝ))
    (x : ℕ → ℕ → ℝ) : ℕ → ℕ → ℝ :=
  let x1 := fun n c => x n c
    + dropPathFactor b.dropPathMod training mask1 * (g1 c * b.attnF (b.norm1F x) shared n c)
  fun n c => x1 n c
    + dropPathFactor b.dropPathMod training mask2 * (g2 c * b.mlpF (b.norm2F x1) n c)

/-- The spec's description of the ungated block forward pass: the
residual branches are added unscaled (apart from the drop-path gate). -/
noncomputable def blockForwardSpecUnscaled (b : BlockModel)
    (training : Bool) (mask1 mask2 : ℝ) (shared : Option (ℕ → ℕ → ℕ → ℝ))
    (x : ℕ → ℕ → ℝ) : ℕ → ℕ → ℝ :=
  let x1 := fun n c => x n c
    + dropPathFactor b.dropPathMod training mask1 * b.attnF (b.norm1F x) shared n c
  fun n c => x1 n c
    + dropPathFactor b.dropPathMod training mask2 * b.mlpF (b.norm2F x1) n c

/-! ## Stochastic-depth schedule (`Beit.__init__`, lines 286-307) -/

/-- `flow.linspace` contract: `steps` evenly spaced values from `a` to
`b` inclusive; a single step yields `[a]`. -/
noncomputable def linspace (a b : ℝ) (steps : ℕ) : List ℝ :=
  (List.range steps).map fun i : ℕ =>
    if steps = 1 then a else a + (b - a) * (i : ℝ) / ((steps : ℝ) - 1)

/-- `dpr = [x.item() for x in flow.linspace(0, drop_path_rate, depth)]`
(lines 286-288). -/
noncomputable def beitDropPathRates (dropPathRate : ℝ) (depth : ℕ) : List ℝ :=
  linspace 0 dropPathRate depth

/-- The block stack of `Beit.__init__` (lines 289-307): block `i` is
built with drop-path rate `dpr[i]`; the per-block sub-module forwards
are passed in as families indexed by the block position. -/
noncomputable def mkBeitBlocks (depth : ℕ) (dropPathRate : ℝ) (dim : ℕ)
    (initValues : Option ℝ)
    (attnF : ℕ → (ℕ → ℕ → ℝ) → Option (ℕ → ℕ → ℕ → ℝ) → (ℕ → ℕ → ℝ))
    (mlpF norm1F norm2F : ℕ → (ℕ → ℕ → ℝ) → (ℕ → ℕ → ℝ)) : List BlockModel :=
  (List.range depth).map fun i =>
    mkBlock dim (attnF i) (mlpF i) (norm1F i) (norm2F i)
      ((beitDropPathRates dropPathRate depth).getD i 0) initValues

/-! ## Weight-initialization pipeline (`Beit.__init__` lines 315-324,
`Beit.fix_init_weight` lines 326-332)

The generic `_init_weights` pass draws truncated-normal values for the
linear weights; its (random) outcome is taken as the given state, and
the deterministic tail of the constructor is modelled explicitly. -/

/-- The weight tensors of one `Block` that the initialization pipeline
can touch: the attention output projection and the two `Mlp` linears
(with `fc2` the rescaled one), plus the attention `qkv` weight and the
two layer-norm weights as representatives of the untouched rest. -/
structure BlockWeights where
  attnQkvWeight : ℕ → ℕ → ℝ
  attnProjWeight : ℕ → ℕ → ℝ
  mlpFc1Weight : ℕ → ℕ → ℝ
  mlpFc2Weight : ℕ → ℕ → ℝ
  norm1Weight : ℕ → ℝ
  norm2Weight : ℕ → ℝ

/-- `rescale(param, layer_id)` (lines 327-328) applied to the two
tensors of lines 331-332: divide by `sqrt(2.0 * layer_id)` in place. -/
noncomputable def rescaleBlock (b : BlockWeights) (layerId : ℕ) : BlockWeights :=
  { b with
    attnProjWeight := fun r c => b.attnProjWeight r c / Real.sqrt (2 * (layerId : ℝ))
    mlpFc2Weight := fun r c => b.mlpFc2Weight r c / Real.sqrt (2 * (layerId : ℝ)) }

/-- The `enumerate(self.blocks)` loop of lines 330-332, with
`layer_id + 1` as the 1-indexed depth. -/
noncomputable def fixInitWeightAux : ℕ → List BlockWeights → List BlockWeights
  | _, [] => []
  | layerId, b :: bs => rescaleBlock b layerId :: fixInitWeightAux (layerId + 1) bs

/-- `Beit.fix_init_weight` (lines 326-332). -/
noncomputable def fixInitWeight (bs : List BlockWeights) : List BlockWeights :=
  fixInitWeightAux 1 bs

/-- The parameter state the constructor tail manipulates. -/
structure BeitParamState where
  blocks : List BlockWeights
  posEmbed : Option ℝ
  clsToken : ℝ
  headWeight : Option (ℕ → ℕ → ℝ)
  headBias : Option (ℕ → ℝ)

/-- The deterministic tail of `Beit.__init__` after the generic
`self.apply(self._init_weights)` pass (lines 315-324): re-draw
`pos_embed` (if present) and `cls_token` truncated-normal, then
`fix_init_weight`, then — when the head is a genuine linear layer —
re-draw its weight truncated-normal and scale weight and bias by
`head_init_scale`.  `g` is the parameter state right after the generic
pass; the truncated-normal draws are passed in explicitly. -/
noncomputable def beitInitTail (g : BeitParamState) (posDraw : ℝ) (clsDraw : ℝ)
    (headDraw : ℕ → ℕ → ℝ) (headInitScale : ℝ) : BeitParamState :=
  let s1 : BeitParamState :=
    { g with
      posEmbed := g.posEmbed.map fun _ => posDraw
      clsToken := clsDraw }
  let s2 : BeitParamState := { s1 with blocks := fixInitWeight s1.blocks }
  { s2 with
    headWeight := s2.headWeight.map fun _ => fun r c => headDraw r c * headInitScale
    headBias := s2.headBias.map fun hb => fun r => hb r * headInitScale }

/-! ## Classification head and pooling (`Beit.__init__` lines 308-313,
`reset_classifier` lines 363-369, `forward_head` lines 384-390)

Layer normalization is an external collaborator, so the `fc_norm`
module is carried as its forward function on pooled feature vectors. -/

/-- The classification head when it is a genuine `nn.Linear`. -/
structure BeitHead where
  inFeatures : ℕ
  outFeatures : ℕ
  weight : ℕ → ℕ → ℝ
  bias : ℕ → ℝ

/-- The head- and pooling-related state of a `Beit` model.  `head =
none` models `nn.Identity`; `normIdent` records whether the trailing
`norm` is `nn.Identity` (the `use_fc_norm` mode). -/
structure BeitModel where
  embedDim : ℕ
  numClasses : ℕ
  globalPool : String
  normIdent : Bool
  fcNorm : Option ((ℕ → ℝ) → (ℕ → ℝ))
  head : Option BeitHead

/-- Lines 308-313 of `Beit.__init__`: `use_fc_norm = (global_pool ==
"avg")` selects between the trailing `norm` and the post-pooling
`fc_norm`; the head is a linear layer exactly when `num_classes > 0`.
The head's initial (random) weights are passed in explicitly. -/
def mkBeitHeadState (globalPool : String) (numClasses embedDim : ℕ)
    (normLayer : (ℕ → ℝ) → (ℕ → ℝ)) (headW : ℕ → ℕ → ℝ) (headB : ℕ → ℝ) :
    BeitModel :=
  let useFcNorm := globalPool = "avg"
  { embedDim := embedDim
    numClasses := numClasses
    globalPool := globalPool
    normIdent := useFcNorm
    fcNorm := if useFcNorm then some normLayer else none
    head := if 0 < numClasses then some ⟨embedDim, numClasses, headW, headB⟩ else none }

/-- `Beit.reset_classifier` (lines 363-369): store the new
`num_classes`, overwrite `global_pool` when one is supplied, and rebuild
only the head — a fresh `nn.Linear(embed_dim, num_classes)` when
`num_classes > 0`, else `nn.Identity`. -/
def resetClassifier (m : BeitModel) (numClasses : ℕ) (globalPool : Option String)
    (freshW : ℕ → ℕ → ℝ) (freshB : ℕ → ℝ) : BeitModel :=
  { m with
    numClasses := numClasses
    globalPool := match globalPool with
      | some g => g
      | none => m.globalPool
    head := if 0 < numClasses then some ⟨m.embedDim, numClasses, freshW, freshB⟩ else none }

/-- Application of the head: `nn.Identity` passes the features through,
a linear head maps them to `outFeatures` logits. -/
noncomputable def headApply (h : Option BeitHead) (v : ℕ → ℝ) : ℕ → ℝ :=
  match h with
  | none => v
  | some hd => fun r => (∑ c ∈ Finset.range hd.inFeatures, hd.weight r c * v c) + hd.bias r

/-- `Beit.forward_head` (lines 384-390) on a token-feature tensor of `N`
tokens: with `fc_norm` present, average the patch tokens (all but token
0) and normalize; otherwise take the class token.  Return the pooled
features when `pre_logits` is set, else apply the head. -/
noncomputable def forwardHead (m : BeitModel) (N : ℕ) (x : ℕ → ℕ → ℝ)
    (preLogits : Bool) : ℕ → ℝ :=
  let pooled : ℕ → ℝ :=
    match m.fcNorm with
    | some fn => fn (fun c => (∑ n ∈ Finset.Ico 1 N, x n c) / ((N - 1 : ℕ) : ℝ))
    | none => x 0
  if preLogits then pooled else headApply m.head pooled

/-! ## Parameter names and `no_weight_decay` (`Beit.no_weight_decay`,
lines 343-348)

`named_parameters()` is embedded as the list of hierarchical parameter
names of the constructed module tree (buffers such as `k_bias` and
`relative_position_index` are not parameters and do not appear). -/

/-- Leading-segment match: `leadMatch pat s` holds when `pat` is an
initial segment of `s`. -/
def leadMatch : List Char → List Char → Bool
  | [], _ => true
  | _ :: _, [] => false
  | p :: ps, s :: ss => p == s && leadMatch ps ss

/-- Substring test on character lists (the Python `in` operator on
strings). -/
def containsSub : List Char → List Char → Bool
  | [], pat => pat.isEmpty
  | s :: rest, pat => leadMatch pat (s :: rest) || containsSub rest pat

/-- `pat in s` for strings. -/
def strContains (s pat : String) : Bool :=
  containsSub s.data pat.data

/-- The parameter names contributed by `blocks.{i}`: the gammas (when
`init_values` is truthy), `norm1`, the attention parameters (`q_bias`
and `v_bias` when `qkv_bias`; the table when the block owns a window;
`qkv` has no bias), `proj`, `norm2` and the two `Mlp` linears. -/
def blockParamNames (qkvBias useRelPosBias gammasPresent : Bool) (i : ℕ) : List String :=
  let p := "blocks." ++ toString i ++ "."
  (if gammasPresent then [p ++ "gamma_1", p ++ "gamma_2"] else [])
    ++ [p ++ "norm1.weight", p ++ "norm1.bias"]
    ++ (if qkvBias then [p ++ "attn.q_bias", p ++ "attn.v_bias"] else [])
    ++ (if useRelPosBias then [p ++ "attn.relative_position_bias_table"] else [])
    ++ [p ++ "attn.qkv.weight", p ++ "attn.proj.weight", p ++ "attn.proj.bias",
        p ++ "norm2.weight", p ++ "norm2.bias",
        p ++ "mlp.fc1.weight", p ++ "mlp.fc1.bias",
        p ++ "mlp.fc2.weight", p ++ "mlp.fc2.bias"]

/-- The parameter names of a constructed `Beit`: `cls_token`,
`pos_embed` only when `use_abs_pos_emb`, the patch-embedding projection,
the shared relative-position-bias table only when
`use_shared_rel_pos_bias`, the block parameters, the trailing `norm`
(absent in `fc_norm` mode, where `norm` is `nn.Identity`) or `fc_norm`,
and the head when `num_classes > 0`. -/
def beitParamNames (useAbsPosEmb useSharedRelPosBias useRelPosBias qkvBias gammasPresent : Bool)
    (depth : ℕ) (globalPool : String) (numClasses : ℕ) : List String :=
  ["cls_token"]
    ++ (if useAbsPosEmb then ["pos_embed"] else [])
    ++ ["patch_embed.proj.weight", "patch_embed.proj.bias"]
    ++ (if useSharedRelPosBias then ["rel_pos_bias.relative_position_bias_table"] else [])
    ++ (List.range depth).flatMap (blockParamNames qkvBias useRelPosBias gammasPresent)
    ++ (if globalPool = "avg" then ["fc_norm.weight", "fc_norm.bias"]
        else ["norm.weight", "norm.bias"])
    ++ (if 0 < numClasses then ["head.weight", "head.bias"] else [])

/-- `Beit.no_weight_decay` (lines 343-348): start from the literal set
`{"pos_embed", "cls_token"}` and add every parameter name containing
`"relative_position_bias_table"`. -/
def noWeightDecay (names : List String) : List String :=
  ["pos_embed", "cls_token"]
    ++ names.filter fun n => strContains n "relative_position_bias_table"

/-- The parameter names of the model built by `beit_base_patch16_224`
(lines 398-419): `use_abs_pos_emb=False`, `use_rel_pos_bias=True`, no
shared bias, `qkv_bias=True` (constructor default), `init_values=0.1`
(so the gammas exist), `depth=12`, default `global_pool="avg"` and
`num_classes=1000`. -/
def beitBaseParamNames : List String :=
  beitParamNames false false true true true 12 "avg" 1000

/-! ## Concrete example states (used by witnesses) -/

/-- A concrete one-block parameter state, standing for an arbitrary
outcome of the generic init pass. -/
noncomputable def exBlockWeights : BlockWeights :=
  ⟨fun _ _ => 1, fun _ _ => 1, fun _ _ => 1, fun _ _ => 1, fun _ => 1, fun _ => 1⟩

/-- A concrete `BeitParamState` with a single block. -/
noncomputable def exBeitParamState : BeitParamState :=
  ⟨[exBlockWeights], none, 0, none, none⟩

/-- A concrete head/pooling state in `fc_norm` (average pooling) mode. -/
noncomputable def exBeitModel : BeitModel :=
  mkBeitHeadState "avg" 3 2 (fun v => v) (fun _ _ => 0) (fun _ => 0)

/-! ## Theorems -/

/-- Decomposition of a bucket id `u * n + c` with `0 ≤ c < n`: the
encoding is injective. -/
theorem bucket_decomposition_inj (n u u2 c c2 : ℤ) (hnpos : 0 < n)
    (hc : 0 ≤ c) (hc2 : 0 ≤ c2) (hcn : c < n) (hc2n : c2 < n)
    (h : u * n + c = u2 * n + c2) : u = u2 ∧ c = c2 := by
  have hne : n ≠ 0 := hnpos.ne'
  have key : ∀ a b : ℤ, 0 ≤ b → b < n → (b + n * a) / n = a := by
    intro a b h0 hlt
    rw [Int.add_mul_ediv_left b a hne, Int.ediv_eq_zero_of_lt h0 hlt, zero_add]
  have h1 : (c + n * u) = (c2 + n * u2) := by ring_nf; ring_nf at h; linarith
  have hu : u = u2 := by
    have k1 := key u c hc hcn
    have k2 := key u2 c2 hc2 hc2n
    rw [← k1, h1, k2]
  refine ⟨hu, ?_⟩
  subst hu
  linarith

/-- C1: for positive `H`, `W` and grid cells `i, j, i2, j2 < H*W`, the
interior entry `(i+1, j+1)` of `gen_relative_position_index` is the
bucket id `(Δrow + H-1) * (2W-1) + (Δcol + W-1)` of the signed offset of
cells `i` and `j`; distinct offsets receive distinct ids; row 0
(excluding `(0,0)`) holds `num_relative_distance - 3`, column 0
(excluding `(0,0)`) holds `num_relative_distance - 2`, and `(0,0)` holds
`num_relative_distance - 1`. -/
theorem gen_relative_position_index_correct (H W i j i2 j2 : ℕ)
    (hH : 1 ≤ H) (hW : 1 ≤ W) (hi : i < H * W) (hj : j < H * W)
    (hi2 : i2 < H * W) (hj2 : j2 < H * W) :
    (gen_relative_position_index H W (i + 1) (j + 1)
        = (((i / W : ℕ) : ℤ) - ((j / W : ℕ) : ℤ) + ((H : ℤ) - 1)) * (2 * (W : ℤ) - 1)
          + (((i % W : ℕ) : ℤ) - ((j % W : ℕ) : ℤ) + ((W : ℤ) - 1)))
    ∧ (gen_relative_position_index H W (i + 1) (j + 1)
          = gen_relative_position_index H W (i2 + 1) (j2 + 1)
        → ((i / W : ℕ) : ℤ) - ((j / W : ℕ) : ℤ) = ((i2 / W : ℕ) : ℤ) - ((j2 / W : ℕ) : ℤ)
          ∧ ((i % W : ℕ) : ℤ) - ((j % W : ℕ) : ℤ) = ((i2 % W : ℕ) : ℤ) - ((j2 % W : ℕ) : ℤ))
    ∧ gen_relative_position_index H W 0 (j + 1) = numRelativeDistance H W - 3
    ∧ gen_relative_position_index H W (i + 1) 0 = numRelativeDistance H W - 2
    ∧ gen_relative_position_index H W 0 0 = numRelativeDistance H W - 1 := by
  have hWpos : 0 < W := hW
  have hinterior : ∀ a b : ℕ,
      gen_relative_position_index H W (a + 1) (b + 1) = relativeCoordsSum H W a b := by
    intro a b
    simp [gen_relative_position_index]
  refine ⟨?_, ?_, ?_, ?_, ?_⟩
  · rw [hinterior]
    simp [relativeCoordsSum, coordsFlatten]
  · intro heq
    rw [hinterior, hinterior] at heq
    simp only [relativeCoordsSum, coordsFlatten] at heq
    have hdi : i / W < H := (Nat.div_lt_iff_lt_mul hWpos).mpr hi
    have hdj : j / W < H := (Nat.div_lt_iff_lt_mul hWpos).mpr hj
    have hdi2 : i2 / W < H := (Nat.div_lt_iff_lt_mul hWpos).mpr hi2
    have hdj2 : j2 / W < H := (Nat.div_lt_iff_lt_mul hWpos).mpr hj2
    have hmi : i % W < W := Nat.mod_lt _ hWpos
    have hmj : j % W < W := Nat.mod_lt _ hWpos
    have hmi2 : i2 % W < W := Nat.mod_lt _ hWpos
    have hmj2 : j2 % W < W := Nat.mod_lt _ hWpos
    have h := bucket_decomposition_inj (2 * (W : ℤ) - 1)
      (((i / W : ℕ) : ℤ) - ((j / W : ℕ) : ℤ) + ((H : ℤ) - 1))
      (((i2 / W : ℕ) : ℤ) - ((j2 / W : ℕ) : ℤ) + ((H : ℤ) - 1))
      (((i % W : ℕ) : ℤ) - ((j % W : ℕ) : ℤ) + ((W : ℤ) - 1))
      (((i2 % W : ℕ) : ℤ) - ((j2 % W : ℕ) : ℤ) + ((W : ℤ) - 1))
      (by omega) (by omega) (by omega) (by omega) (by omega) heq
    constructor
    · omega
    · omega
  · simp [gen_relative_position_index]
  · simp [gen_relative_position_index]
  · simp [gen_relative_position_index]

/-- Witness for C1 at `H = W = 2`, cells `i = 1`, `j = 2`, `i2 = 3`,
`j2 = 0`. -/
theorem gen_relative_position_index_correct_witness :
    1 ≤ 2 ∧ 1 ≤ 2 ∧ 1 < 2 * 2 ∧ 2 < 2 * 2 ∧ 3 < 2 * 2 ∧ 0 < 2 * 2 ∧
    ((gen_relative_position_index 2 2 (1 + 1) (2 + 1)
        = (((1 / 2 : ℕ) : ℤ) - ((2 / 2 : ℕ) : ℤ) + ((2 : ℤ) - 1)) * (2 * (2 : ℤ) - 1)
          + (((1 % 2 : ℕ) : ℤ) - ((2 % 2 : ℕ) : ℤ) + ((2 : ℤ) - 1)))
    ∧ (gen_relative_position_index 2 2 (1 + 1) (2 + 1)
          = gen_relative_position_index 2 2 (3 + 1) (0 + 1)
        → ((1 / 2 : ℕ) : ℤ) - ((2 / 2 : ℕ) : ℤ) = ((3 / 2 : ℕ) : ℤ) - ((0 / 2 : ℕ) : ℤ)
          ∧ ((1 % 2 : ℕ) : ℤ) - ((2 % 2 : ℕ) : ℤ) = ((3 % 2 : ℕ) : ℤ) - ((0 % 2 : ℕ) : ℤ))
    ∧ gen_relative_position_index 2 2 0 (2 + 1) = numRelativeDistance 2 2 - 3
    ∧ gen_relative_position_index 2 2 (1 + 1) 0 = numRelativeDistance 2 2 - 2
    ∧ gen_relative_position_index 2 2 0 0 = numRelativeDistance 2 2 - 1) :=
  ⟨by decide, by decide, by decide, by decide, by decide, by decide,
    gen_relative_position_index_correct 2 2 1 2 3 0 (by decide) (by decide)
      (by decide) (by decide) (by decide) (by decide)⟩

/-- C3: an `Attention` module constructed with `qkv_bias = False`
computes the same forward output as one constructed with
`qkv_bias = True` whose `q_bias` and `v_bias` parameters are (still)
all zero, for every input, sequence length, shared weights and shared
relative-position bias. -/
theorem attention_qkv_bias_zero_equiv (dim numHeads : ℕ)
    (window : Option (ℕ × ℕ)) (attnHeadDim : Option ℕ)
    (qkvWeight projWeight : ℕ → ℕ → ℝ) (projBias : ℕ → ℝ)
    (N : ℕ) (x : ℕ → ℕ → ℝ) (shared : Option (ℕ → ℕ → ℕ → ℝ)) :
    attnForward (mkAttention dim numHeads true window attnHeadDim qkvWeight projWeight projBias)
        N x shared
      = attnForward (mkAttention dim numHeads false window attnHeadDim qkvWeight projWeight projBias)
        N x shared := by
  unfold attnForward
  have hqkv :
      linearB (mkAttention dim numHeads true window attnHeadDim qkvWeight projWeight projBias).dim
          x
          (mkAttention dim numHeads true window attnHeadDim qkvWeight projWeight projBias).qkvWeight
          (qkvBiasVec (mkAttention dim numHeads true window attnHeadDim qkvWeight projWeight projBias))
        = linearB (mkAttention dim numHeads false window attnHeadDim qkvWeight projWeight projBias).dim
          x
          (mkAttention dim numHeads false window attnHeadDim qkvWeight projWeight projBias).qkvWeight
          (qkvBiasVec (mkAttention dim numHeads false window attnHeadDim qkvWeight projWeight projBias)) := by
    funext n e
    simp only [mkAttention, qkvBiasVec, linearB, catBias, if_true, if_false]
    split <;> simp
  rw [hqkv]
  rfl

/-- C4: when the module owns a relative-position table and the caller
also supplies a shared relative-position bias, the pre-softmax attention
scores are the raw scaled dot-product scores plus the gathered own-table
bias plus the shared bias — the two biases are cumulative, neither
suppresses the other. -/
theorem attention_both_biases_cumulative (headDim wh ww : ℕ)
    (t : ℕ → ℕ → ℝ) (s : ℕ → ℕ → ℕ → ℝ) (q k : ℕ → ℕ → ℕ → ℝ) (h i j : ℕ) :
    attnScores headDim wh ww (some t) (some s) q k h i j
      = (∑ d ∈ Finset.range headDim, q h i d * k h j d)
        + relPosGather t wh ww h i j + s h i j := by
  simp [attnScores]

/-- Counterexample to C6 as stated: the `init_values` argument *is*
provided (as `0.0`), yet the gates are absent, because `Block.__init__`
tests Python truthiness (`if init_values:`), not presence. -/
theorem block_gamma_zero_init_values_absent :
    (mkBlock 1 (fun _ _ => fun _ _ => 0) (fun y => y) (fun y => y) (fun y => y)
        0 (some 0)).gammas = none := by
  simp [mkBlock]

/-- C6 (amended): when `init_values` is provided *and nonzero*,
`gamma_1` and `gamma_2` are per-channel vectors constantly equal to that
value and each residual branch is scaled by its gamma before the
drop-path-gated residual add; when `init_values` is absent the gammas
are absent and the branches are added unscaled. -/
theorem block_gamma_gating (dim : ℕ)
    (attnF : (ℕ → ℕ → ℝ) → Option (ℕ → ℕ → ℕ → ℝ) → (ℕ → ℕ → ℝ))
    (mlpF norm1F norm2F : (ℕ → ℕ → ℝ) → (ℕ → ℕ → ℝ))
    (rate v : ℝ) (training : Bool) (mask1 mask2 : ℝ)
    (shared : Option (ℕ → ℕ → ℕ → ℝ)) (x : ℕ → ℕ → ℝ) (hv : v ≠ 0) :
    (mkBlock dim attnF mlpF norm1F norm2F rate (some v)).gammas
        = some (fun _ => v, fun _ => v)
    ∧ blockForward (mkBlock dim attnF mlpF norm1F norm2F rate (some v))
          training mask1 mask2 shared x
        = blockForwardSpecScaled (mkBlock dim attnF mlpF norm1F norm2F rate (some v))
          (fun _ => v) (fun _ => v) training mask1 mask2 shared x
    ∧ (mkBlock dim attnF mlpF norm1F norm2F rate none).gammas = none
    ∧ blockForward (mkBlock dim attnF mlpF norm1F norm2F rate none)
          training mask1 mask2 shared x
        = blockForwardSpecUnscaled (mkBlock dim attnF mlpF norm1F norm2F rate none)
          training mask1 mask2 shared x := by
  refine ⟨?_, ?_, ?_, ?_⟩
  · simp [mkBlock, hv]
  · simp only [blockForward, blockForwardSpecScaled, mkBlock, if_neg hv]
  · simp [mkBlock]
  · simp only [blockForward, blockForwardSpecUnscaled, mkBlock]

/-- Witness for C6 (amended) at `v = 1` with identity sub-modules. -/
theorem block_gamma_gating_witness :
    (1 : ℝ) ≠ 0 ∧
    ((mkBlock 1 (fun _ _ => fun _ _ => 0) (fun y => y) (fun y => y) (fun y => y)
        0 (some 1)).gammas = some (fun _ => 1, fun _ => 1)
    ∧ blockForward (mkBlock 1 (fun _ _ => fun _ _ => 0) (fun y => y) (fun y => y) (fun y => y)
          0 (some 1)) true 1 1 none (fun _ _ => 1)
        = blockForwardSpecScaled (mkBlock 1 (fun _ _ => fun _ _ => 0) (fun y => y) (fun y => y)
          (fun y => y) 0 (some 1)) (fun _ => 1) (fun _ => 1) true 1 1 none (fun _ _ => 1)
    ∧ (mkBlock 1 (fun _ _ => fun _ _ => 0) (fun y => y) (fun y => y) (fun y => y)
        0 none).gammas = none
    ∧ blockForward (mkBlock 1 (fun _ _ => fun _ _ => 0) (fun y => y) (fun y => y) (fun y => y)
          0 none) true 1 1 none (fun _ _ => 1)
        = blockForwardSpecUnscaled (mkBlock 1 (fun _ _ => fun _ _ => 0) (fun y => y) (fun y => y)
          (fun y => y) 0 none) true 1 1 none (fun _ _ => 1)) :=
  ⟨one_ne_zero,
    block_gamma_gating 1 (fun _ _ => fun _ _ => 0) (fun y => y) (fun y => y) (fun y => y)
      0 1 true 1 1 none (fun _ _ => 1) one_ne_zero⟩

/-- C7: for depth at least 2, the stochastic-depth rate passed to the
block at 0-indexed position `i` is `drop_path_rate * i / (depth - 1)`;
in particular the first block gets rate 0 and the last block gets the
configured `drop_path_rate`. -/
theorem beit_drop_path_schedule_linear (r : ℝ) (depth i : ℕ)
    (hd : 2 ≤ depth) (hi : i < depth) :
    (beitDropPathRates r depth).getD i 0 = r * (i : ℝ) / ((depth : ℝ) - 1)
    ∧ (beitDropPathRates r depth).getD 0 0 = 0
    ∧ (beitDropPathRates r depth).getD (depth - 1) 0 = r := by
  have hne : depth ≠ 1 := by omega
  have hcast : ((depth : ℝ) - 1) ≠ 0 := by
    have : (2 : ℝ) ≤ (depth : ℝ) := by exact_mod_cast hd
    nlinarith
  have hval : ∀ k : ℕ, k < depth →
      (beitDropPathRates r depth).getD k 0 = r * (k : ℝ) / ((depth : ℝ) - 1) := by
    intro k hk
    have hlen : k < (linspace 0 r depth).length := by
      unfold linspace
      rw [List.length_map, List.length_range]
      exact hk
    unfold beitDropPathRates
    rw [List.getD_eq_getElem _ _ hlen]
    unfold linspace
    rw [List.getElem_map, List.getElem_range, if_neg hne]
    ring
  refine ⟨hval i hi, ?_, ?_⟩
  · rw [hval 0 (by omega)]
    simp
  · rw [hval (depth - 1) (by omega)]
    have hc : ((depth - 1 : ℕ) : ℝ) = (depth : ℝ) - 1 := by
      have : (1 : ℕ) ≤ depth := by omega
      push_cast [Nat.cast_sub this]
      ring
    rw [hc, mul_div_assoc, div_self hcast, mul_one]

/-- Witness for C7 at `r = 1`, `depth = 3`, `i = 2`. -/
theorem beit_drop_path_schedule_linear_witness :
    2 ≤ 3 ∧ 2 < 3 ∧
    ((beitDropPathRates 1 3).getD 2 0 = 1 * ((2 : ℕ) : ℝ) / (((3 : ℕ) : ℝ) - 1)
    ∧ (beitDropPathRates 1 3).getD 0 0 = 0
    ∧ (beitDropPathRates 1 3).getD (3 - 1) 0 = 1) :=
  ⟨by decide, by decide, beit_drop_path_schedule_linear 1 3 2 (by decide) (by decide)⟩

/-- C10: with `depth = 1` the schedule `linspace(0, r, 1)` assigns the
single block the rate 0, regardless of the configured `drop_path_rate`,
so its `drop_path` attribute is `nn.Identity` and the realized drop-path
factor is 1 even in training mode. -/
theorem beit_depth_one_drop_path_identity (r : ℝ) (dim : ℕ) (initValues : Option ℝ)
    (attnF : ℕ → (ℕ → ℕ → ℝ) → Option (ℕ → ℕ → ℕ → ℝ) → (ℕ → ℕ → ℝ))
    (mlpF norm1F norm2F : ℕ → (ℕ → ℕ → ℝ) → (ℕ → ℕ → ℝ))
    (training : Bool) (mask : ℝ) :
    (mkBeitBlocks 1 r dim initValues attnF mlpF norm1F norm2F).map
        (fun b => b.dropPathMod) = [DropPathMod.identity]
    ∧ dropPathFactor DropPathMod.identity training mask = 1 := by
  constructor
  · simp [mkBeitBlocks, beitDropPathRates, linspace, List.range_succ, mkBlock]
  · rfl

/-- `fixInitWeightAux` preserves length. -/
theorem fixInitWeightAux_length (k : ℕ) (bs : List BlockWeights) :
    (fixInitWeightAux k bs).length = bs.length := by
  induction bs generalizing k with
  | nil => rfl
  | cons b rest ih => simp [fixInitWeightAux, ih]

/-- Element `i` of `fixInitWeightAux k bs` is element `i` of `bs`
rescaled with layer id `k + i`. -/
theorem fixInitWeightAux_get (k : ℕ) (bs : List BlockWeights) (i : ℕ)
    (h : i < bs.length) (h2 : i < (fixInitWeightAux k bs).length) :
    (fixInitWeightAux k bs).get ⟨i, h2⟩ = rescaleBlock (bs.get ⟨i, h⟩) (k + i) := by
  induction bs generalizing k i with
  | nil => simp at h
  | cons b rest ih =>
    cases i with
    | zero => rfl
    | succ n =>
      have hn : n < rest.length := by simpa using h
      have hn2 : n < (fixInitWeightAux (k + 1) rest).length := by
        rw [fixInitWeightAux_length]
        exact hn
      have : (fixInitWeightAux k (b :: rest)).get ⟨n + 1, h2⟩
          = (fixInitWeightAux (k + 1) rest).get ⟨n, hn2⟩ := rfl
      rw [this, ih (k + 1) n hn hn2]
      congr 1
      omega

/-- C2: after the constructor tail, the attention output-projection
weight and the `mlp.fc2` weight of the block at 0-indexed position `i`
(1-indexed depth `i + 1`) equal their values from the generic init pass
divided by `sqrt(2 * (i + 1))`; no other field of the block is touched,
and the rescaling happens after the generic pass (its input is the
post-generic-pass state `g`). -/
theorem beit_fix_init_weight_rescale (g : BeitParamState) (posDraw clsDraw : ℝ)
    (headDraw : ℕ → ℕ → ℝ) (headInitScale : ℝ) (i : ℕ)
    (h : i < g.blocks.length)
    (h2 : i < (beitInitTail g posDraw clsDraw headDraw headInitScale).blocks.length) :
    (beitInitTail g posDraw clsDraw headDraw headInitScale).blocks.get ⟨i, h2⟩
      = { g.blocks.get ⟨i, h⟩ with
          attnProjWeight := fun r c =>
            (g.blocks.get ⟨i, h⟩).attnProjWeight r c / Real.sqrt (2 * ((i : ℝ) + 1))
          mlpFc2Weight := fun r c =>
            (g.blocks.get ⟨i, h⟩).mlpFc2Weight r c / Real.sqrt (2 * ((i : ℝ) + 1)) } := by
  have h2' : i < (fixInitWeightAux 1 g.blocks).length := h2
  have hget : (beitInitTail g posDraw clsDraw headDraw headInitScale).blocks.get ⟨i, h2⟩
      = (fixInitWeightAux 1 g.blocks).get ⟨i, h2'⟩ := rfl
  rw [hget, fixInitWeightAux_get 1 g.blocks i h h2']
  have hcast : ((1 + i : ℕ) : ℝ) = (i : ℝ) + 1 := by
    push_cast
    ring
  simp only [rescaleBlock, hcast]

/-- Witness for C2 on a concrete one-block state at `i = 0`. -/
theorem beit_fix_init_weight_rescale_witness :
    0 < exBeitParamState.blocks.length
    ∧ (beitInitTail exBeitParamState 0 0 (fun _ _ => 0) 1).blocks.get ⟨0, by decide⟩
      = { exBeitParamState.blocks.get ⟨0, by decide⟩ with
          attnProjWeight := fun r c =>
            (exBeitParamState.blocks.get ⟨0, by decide⟩).attnProjWeight r c
              / Real.sqrt (2 * (((0 : ℕ) : ℝ) + 1))
          mlpFc2Weight := fun r c =>
            (exBeitParamState.blocks.get ⟨0, by decide⟩).mlpFc2Weight r c
              / Real.sqrt (2 * (((0 : ℕ) : ℝ) + 1)) } :=
  ⟨by decide,
    beit_fix_init_weight_rescale exBeitParamState 0 0 (fun _ _ => 0) 1 0
      (by decide) (by decide)⟩

/-- Counterexample to C5 as stated: the set returned by
`no_weight_decay()` for the `beit_base_patch16_224` model *contains*
`"pos_embed"`, because the method starts from the unconditional literal
`{"pos_embed", "cls_token"}` even though this variant has no `pos_embed`
parameter. -/
theorem no_weight_decay_contains_pos_embed :
    "pos_embed" ∈ noWeightDecay beitBaseParamNames := by
  simp [noWeightDecay]

/-- C5 (amended): for the `beit_base_patch16_224` model,
`no_weight_decay()` returns exactly the names `"pos_embed"` and
`"cls_token"` (the unconditional base literal) plus every parameter name
containing `"relative_position_bias_table"` — in particular it includes
all the per-block bias-table names, which do occur among the model's
parameters, and it includes `"pos_embed"` rather than excluding it. -/
theorem beit_base_no_weight_decay_spec :
    (∀ n : String, n ∈ noWeightDecay beitBaseParamNames
      ↔ (n = "pos_embed" ∨ n = "cls_token"
          ∨ (n ∈ beitBaseParamNames
              ∧ strContains n "relative_position_bias_table" = true)))
    ∧ "blocks.0.attn.relative_position_bias_table" ∈ beitBaseParamNames := by
  constructor
  · intro n
    simp [noWeightDecay, List.mem_filter, or_assoc]
  · decide

/-- C8: after `reset_classifier(0)` the head is `nn.Identity`, so
`forward_head` with `pre_logits = False` returns exactly the pooled
(pre-logits) features; after `reset_classifier(K)` with `K > 0` the head
is a fresh linear layer from `embed_dim` to `K` built from the fresh
draws, and `forward_head` applies it to the pooled features; the
`fc_norm` / `norm` modules and `embed_dim` are untouched in both
cases. -/
theorem beit_reset_classifier_head (m : BeitModel) (K : ℕ) (g : Option String)
    (w : ℕ → ℕ → ℝ) (b : ℕ → ℝ) (N : ℕ) (x : ℕ → ℕ → ℝ) (hK : 0 < K) :
    (resetClassifier m 0 g w b).head = none
    ∧ forwardHead (resetClassifier m 0 g w b) N x false
        = forwardHead (resetClassifier m 0 g w b) N x true
    ∧ (resetClassifier m K g w b).head = some ⟨m.embedDim, K, w, b⟩
    ∧ forwardHead (resetClassifier m K g w b) N x false
        = (fun r => (∑ c ∈ Finset.range m.embedDim,
            w r c * forwardHead (resetClassifier m K g w b) N x true c) + b r)
    ∧ (resetClassifier m K g w b).fcNorm = m.fcNorm
    ∧ (resetClassifier m K g w b).normIdent = m.normIdent
    ∧ (resetClassifier m K g w b).embedDim = m.embedDim
    ∧ (resetClassifier m 0 g w b).fcNorm = m.fcNorm := by
  have h0 : (resetClassifier m 0 g w b).head = none := by
    simp [resetClassifier]
  have hKhead : (resetClassifier m K g w b).head = some ⟨m.embedDim, K, w, b⟩ := by
    simp [resetClassifier, hK]
  refine ⟨h0, ?_, hKhead, ?_, rfl, rfl, rfl, rfl⟩
  · simp [forwardHead, h0, headApply]
  · simp [forwardHead, hKhead, headApply]

/-- Witness for C8 at `K = 5` on a concrete model. -/
theorem beit_reset_classifier_head_witness :
    0 < 5 ∧
    ((resetClassifier exBeitModel 0 none (fun _ _ => 1) (fun _ => 1)).head = none
    ∧ forwardHead (resetClassifier exBeitModel 0 none (fun _ _ => 1) (fun _ => 1)) 2
          (fun _ _ => 1) false
        = forwardHead (resetClassifier exBeitModel 0 none (fun _ _ => 1) (fun _ => 1)) 2
          (fun _ _ => 1) true
    ∧ (resetClassifier exBeitModel 5 none (fun _ _ => 1) (fun _ => 1)).head
        = some ⟨exBeitModel.embedDim, 5, fun _ _ => 1, fun _ => 1⟩
    ∧ forwardHead (resetClassifier exBeitModel 5 none (fun _ _ => 1) (fun _ => 1)) 2
          (fun _ _ => 1) false
        = (fun r => (∑ c ∈ Finset.range exBeitModel.embedDim,
            (fun _ _ => (1 : ℝ)) r c
              * forwardHead (resetClassifier exBeitModel 5 none (fun _ _ => 1) (fun _ => 1)) 2
                (fun _ _ => 1) true c) + (fun _ => (1 : ℝ)) r)
    ∧ (resetClassifier exBeitModel 5 none (fun _ _ => 1) (fun _ => 1)).fcNorm
        = exBeitModel.fcNorm
    ∧ (resetClassifier exBeitModel 5 none (fun _ _ => 1) (fun _ => 1)).normIdent
        = exBeitModel.normIdent
    ∧ (resetClassifier exBeitModel 5 none (fun _ _ => 1) (fun _ => 1)).embedDim
        = exBeitModel.embedDim
    ∧ (resetClassifier exBeitModel 0 none (fun _ _ => 1) (fun _ => 1)).fcNorm
        = exBeitModel.fcNorm) :=
  ⟨by decide,
    beit_reset_classifier_head exBeitModel 5 none (fun _ _ => 1) (fun _ => 1) 2
      (fun _ _ => 1) (by decide)⟩

/-- Counterexample to C9 as stated: a model constructed with a non-`avg`
`global_pool` and then reconfigured via `reset_classifier(5,
global_pool="avg")` still pools by taking the class token — on the input
`x n c = n` over 2 tokens, `forward_head` pre-logits yields the class
token value 0, not the patch-token average 1 — because `forward_head`
dispatches on the `fc_norm` module fixed at construction, which
`reset_classifier` does not rebuild. -/
theorem reset_classifier_pool_not_swapped :
    forwardHead
        (resetClassifier (mkBeitHeadState "" 5 2 (fun v => v) (fun _ _ => 0) (fun _ => 0))
          5 (some "avg") (fun _ _ => 0) (fun _ => 0))
        2 (fun n _ => (n : ℝ)) true 0 = 0
    ∧ (∑ n ∈ Finset.Ico (1 : ℕ) 2, ((n : ℕ) : ℝ)) / ((2 - 1 : ℕ) : ℝ) = 1
    ∧ (0 : ℝ) ≠ 1 := by
  refine ⟨?_, ?_, by norm_num⟩
  · simp [forwardHead, resetClassifier, mkBeitHeadState]
  · norm_num

/-- C9 (amended): `reset_classifier` records the new `global_pool`
string (when supplied) and rebuilds only the head; the pooling path of
`forward_head` is bound to the `fc_norm` module chosen at construction,
so the pre-logits output is unchanged by any `reset_classifier` call. -/
theorem reset_classifier_pooling_unchanged (m : BeitModel) (K : ℕ) (gp : String)
    (gOpt : Option String) (w : ℕ → ℕ → ℝ) (b : ℕ → ℝ) (N : ℕ) (x : ℕ → ℕ → ℝ) :
    forwardHead (resetClassifier m K gOpt w b) N x true = forwardHead m N x true
    ∧ (resetClassifier m K (some gp) w b).globalPool = gp
    ∧ (resetClassifier m K none w b).globalPool = m.globalPool
    ∧ (resetClassifier m K gOpt w b).fcNorm = m.fcNorm := by
  refine ⟨?_, rfl, rfl, rfl⟩
  simp [forwardHead, resetClassifier]
